import Mathlib

/-!
# autodpi: resolution-to-DPI watcher

A shallow embedding of `autodpi.go` (package `main`) together with theorems about
its configuration lookup, configuration validation, display probe, watcher loop and
command-line dispatch.

Conventions of the embedding:

* a Go `string` is a list of characters (`GoString`); the separators and markers
  the program uses are ASCII, so splitting and searching agree with Go's byte-level
  functions on every valid UTF-8 text;
* a Go `any` holding what `yaml.Unmarshal` stores into `map[string]any` is a
  `GoAny`; a `map[string]any` is an association list with unique keys;
* a call that can end the process returns an `Outcome`: a value, a `log.Fatal*`
  termination (message logged, exit status 1), or a run-time panic;
* everything outside the process (the `xrandr` and `xfconf-query` commands, the
  operating system) is an explicit argument.
-/

namespace Autodpi

/-! ## Go values -/

/-- A Go string. -/
abbrev GoString := List Char

/-- The dynamic values `yaml.Unmarshal` stores in an `any`: `nil`, `bool`, `int`,
`float64` (kept as its bit pattern), `string`, `[]any`, `map[string]any` and, for a
mapping with a non-string key, `map[any]any`. -/
inductive GoAny where
  | nil : GoAny
  | bool (b : Bool) : GoAny
  | int (n : Int) : GoAny
  | float64 (bits : Nat) : GoAny
  | str (s : GoString) : GoAny
  | slice (xs : List GoAny) : GoAny
  | strMap (kvs : List (GoString × GoAny)) : GoAny
  | anyMap (kvs : List (GoAny × GoAny)) : GoAny

/-- A `map[string]any`. -/
abbrev StrMap := List (GoString × GoAny)

/-- The two-result map index `v, ok := m[key]`: `none` when the key is absent. -/
def mapIndex : StrMap → GoString → Option GoAny
  | [], _ => none
  | (k, v) :: rest, key => if k = key then some v else mapIndex rest key

/-- The one-result map index `m[key]`: the zero value `nil` when the key is absent. -/
def mapGet (m : StrMap) (key : GoString) : GoAny :=
  (mapIndex m key).getD GoAny.nil

/-- The comparison `x == s` of an interface value with a string: true exactly when
the dynamic type is `string` and the values are equal. -/
def ifaceEqString : GoAny → GoString → Bool
  | GoAny.str t, s => decide (t = s)
  | _, _ => false

/-! ## Process outcomes -/

/-- What a `log.Fatal*` call prints before `os.Exit(1)`. -/
inductive Diagnostic where
  /-- The rendered message of `log.Fatalln` or of `log.Fatalf` with a constant format. -/
  | text (msg : GoString) : Diagnostic
  /-- The call `log.Fatalf(f)` with a computed format `f` and no operand. -/
  | format (f : GoString) : Diagnostic
  /-- The call `log.Fatalln(err)` or `log.Fatal(err)` with an error value. -/
  | err (e : GoString) : Diagnostic
  /-- The call `log.Fatalf("Cannot set font DPI (exit code %v), xfconf-query:\n%v", ...)`
  with its two operands. -/
  | cannotSetDpi (exitCode : Int) (output : GoString) : Diagnostic
  deriving DecidableEq, Repr

/-- The result of a call that may end the process. -/
inductive Outcome (α : Type) where
  | ok (a : α) : Outcome α
  | fatal (d : Diagnostic) : Outcome α
  | panic (msg : GoString) : Outcome α
  deriving DecidableEq, Repr

/-! ## Configuration lookup -/

/-- The body of the `range` loop of `findDpiValue` over the entries that remain. -/
def findDpiValueLoop (resolution : GoString) : List GoAny → Outcome (Option Int)
  | [] => Outcome.ok none
  | resData :: rest =>
    match resData with
    | GoAny.strMap resDataMap =>
      if ifaceEqString (mapGet resDataMap "res".toList) resolution then
        match mapGet resDataMap "dpi".toList with
        | GoAny.int dpi => Outcome.ok (some dpi)
        | _ => Outcome.panic "interface conversion: value is not int".toList
      else findDpiValueLoop resolution rest
    | _ => Outcome.panic "interface conversion: value is not map[string]any".toList

/-- The function `findDpiValue`: the `dpi` of the first entry of
`dpiData["resolutions"]` whose `res` equals `resolution`, `none` for the `nil`
pointer. -/
def findDpiValue (dpiData : StrMap) (resolution : GoString) : Outcome (Option Int) :=
  match mapGet dpiData "resolutions".toList with
  | GoAny.slice entries => findDpiValueLoop resolution entries
  | _ => Outcome.panic "interface conversion: value is not []any".toList

/-! ## The package `strings` -/

/-- The predicate `unicode.IsSpace`: the Latin-1 spaces
`'\t'`, `'\n'`, `'\v'`, `'\f'`, `'\r'`, `' '`, U+0085, U+00A0 and, beyond Latin-1, the
characters with the Unicode property White_Space. -/
def isSpace (c : Char) : Bool :=
  let n := c.toNat
  (9 ≤ n && n ≤ 13) || n = 32 || n = 0x85 || n = 0xA0 || n = 0x1680 ||
  (0x2000 ≤ n && n ≤ 0x200A) || n = 0x2028 || n = 0x2029 || n = 0x202F ||
  n = 0x205F || n = 0x3000

/-- The function `strings.TrimSpace`: the string without its leading and trailing
white space. -/
def TrimSpace (s : GoString) : GoString :=
  ((s.dropWhile isSpace).reverse.dropWhile isSpace).reverse

/-- The function `strings.HasPrefix`. -/
def HasPrefix : GoString → GoString → Bool
  | _, [] => true
  | [], _ :: _ => false
  | c :: cs, p :: ps => decide (c = p) && HasPrefix cs ps

/-- The function `strings.Contains`: `substr` occurs somewhere within `s`. -/
def Contains : GoString → GoString → Bool
  | [], substr => HasPrefix [] substr
  | c :: cs, substr => HasPrefix (c :: cs) substr || Contains cs substr

/-- The function `strings.Split` for a separator of one character: the pieces of `s`
between the occurrences of `sep`, one more piece than there are occurrences. -/
def Split : GoString → Char → List GoString
  | [], _ => [[]]
  | c :: cs, sep =>
    if c = sep then [] :: Split cs sep
    else
      match Split cs sep with
      | [] => [[c]]
      | piece :: pieces => (c :: piece) :: pieces

/-- The function `strconv.Itoa`: the decimal text of an integer. -/
def Itoa (n : Int) : GoString :=
  match n with
  | Int.ofNat m => (Nat.repr m).toList
  | Int.negSucc m => '-' :: (Nat.repr (m + 1)).toList

/-! ## Display probe -/

/-- What `exec.Command(name).Output()` returns: the captured standard output and the
error, which is present when the executable is not found, cannot be started or exits
with a non-zero status. -/
structure CmdOutput where
  output : GoString
  err : Option GoString

/-- The marker of the line that describes the primary display. -/
def primaryMarker : GoString := " connected primary ".toList

/-- The `range` loop of `getPrimaryScreenResolution` over the lines that remain.
An index expression out of range is a run-time panic. -/
def scanLines : List GoString → Outcome GoString
  | [] => Outcome.ok []
  | line :: rest =>
    let line := TrimSpace line
    if Contains line primaryMarker then
      match (Split line ' ')[3]? with
      | none => Outcome.panic "index out of range [3]".toList
      | some res =>
        match (Split res '+')[0]? with
        | none => Outcome.panic "index out of range [0]".toList
        | some r => Outcome.ok r
    else scanLines rest

/-- The function `getPrimaryScreenResolution`, given what running `xrandr` returned. -/
def getPrimaryScreenResolution (xrandr : CmdOutput) : Outcome GoString :=
  match xrandr.err with
  | some e => Outcome.fatal (Diagnostic.err e)
  | none => scanLines (Split xrandr.output '\n')

/-! ## Configuration file -/

/-- The message `formatErrMsg` of `readDpiFile`. -/
def formatErrMsg (fullDPIFilePathname : GoString) : GoString :=
  fullDPIFilePathname ++ " has incorrect format, please delete it to create default.".toList

/-- The `range` loop of `readDpiFile` over the entries that remain: the checks are
made in the order `dpi` present, `res` present, `res` not blank, `dpi` an `int`. -/
def checkEntries (fullDPIFilePathname : GoString) : List GoAny → Outcome Unit
  | [] => Outcome.ok ()
  | dpiData :: rest =>
    match dpiData with
    | GoAny.strMap dpiDataObj =>
      match mapIndex dpiDataObj "dpi".toList with
      | none => Outcome.fatal (Diagnostic.text (formatErrMsg fullDPIFilePathname))
      | some dpi =>
        match mapIndex dpiDataObj "res".toList with
        | none => Outcome.fatal (Diagnostic.text (formatErrMsg fullDPIFilePathname))
        | some (GoAny.str res) =>
          if TrimSpace res = [] then
            Outcome.fatal (Diagnostic.text (formatErrMsg fullDPIFilePathname))
          else
            match dpi with
            | GoAny.int _ => checkEntries fullDPIFilePathname rest
            | _ => Outcome.fatal (Diagnostic.text (formatErrMsg fullDPIFilePathname))
        | some _ => Outcome.panic "interface conversion: value is not string".toList
    | _ => Outcome.panic "interface conversion: value is not map[string]any".toList

/-- The part of `readDpiFile` that follows `yaml.Unmarshal`: the checks on the
decoded `dpiData`. -/
def checkDpiData (fullDPIFilePathname : GoString) (dpiData : StrMap) : Outcome Unit :=
  match mapIndex dpiData "resolutions".toList with
  | none => Outcome.fatal (Diagnostic.format (formatErrMsg fullDPIFilePathname))
  | some (GoAny.slice entries) => checkEntries fullDPIFilePathname entries
  | some _ => Outcome.panic "interface conversion: value is not []any".toList

/-- The function `readDpiFile`, given what `os.ReadFile` returns for the
configuration path and the decoder `yaml.Unmarshal` into a `map[string]any`; the
result is the global `dpiData` when every check passes. -/
def readDpiFile (fullDPIFilePathname : GoString) (readFile : Except GoString GoString)
    (unmarshal : GoString → Except GoString StrMap) : Outcome StrMap :=
  match readFile with
  | Except.error e => Outcome.fatal (Diagnostic.err e)
  | Except.ok data =>
    match unmarshal data with
    | Except.error e => Outcome.fatal (Diagnostic.err e)
    | Except.ok dpiData =>
      match checkDpiData fullDPIFilePathname dpiData with
      | Outcome.ok _ => Outcome.ok dpiData
      | Outcome.fatal d => Outcome.fatal d
      | Outcome.panic m => Outcome.panic m

/-! ## The package `os/exec` -/

/-- What the operating system answers to one request to start a process: the start
fails, or the process runs and later reports an exit status to `Wait` (`-1` when a
signal ended it) after writing `output`. -/
inductive SpawnResult where
  | failed (err : GoString) : SpawnResult
  | exited (code : Int) (output : GoString) : SpawnResult

/-- What the program observes of the world, in order. -/
inductive Event where
  /-- The call `time.Sleep(resolutionCheck)`. -/
  | sleep : Event
  /-- One message written with `log.Print*`. -/
  | log (msg : GoString) : Event
  /-- The call `findDpiValue(resolution)`. -/
  | lookup (resolution : GoString) : Event
  /-- The call `exec.Command(argv[0], argv[1:]...)`. -/
  | command (argv : List GoString) : Event
  /-- A request to the operating system to start a process with `argv`, and whether a
  process was started. -/
  | startProcess (argv : List GoString) (started : Bool) : Event
  deriving DecidableEq, Repr

/-- The fields of an `exec.Cmd` that the program reads or that decide what its
methods do. `Process` is the started process, named by the exit status and output it
will report; `ProcessState` is the exit status `Wait` recorded. -/
structure Cmd where
  Args : List GoString
  Err : Option GoString
  Process : Option (Int × GoString)
  ProcessState : Option Int
  Stdout : Bool

/-- The state threaded through the methods of one `exec.Cmd`: the command, the number
of start requests made to the operating system so far, and the events so far. -/
structure ExecState where
  cmd : Cmd
  requests : Nat
  trace : List Event

/-- The function `exec.Command`: `lookPathErr` is the error of looking the
executable up on the search path, kept in the field `Err`. -/
def Command (lookPathErr : Option GoString) (argv : List GoString) : Cmd :=
  { Args := argv, Err := lookPathErr, Process := none, ProcessState := none, Stdout := false }

/-- The method `Cmd.Start`: refuses a command that was already started, returns `Err`
when it is set, and otherwise asks the operating system for a process. -/
def Cmd.Start (os : Nat → SpawnResult) (st : ExecState) : ExecState × Option GoString :=
  match st.cmd.Process with
  | some _ => (st, some "exec: already started".toList)
  | none =>
    match st.cmd.Err with
    | some e => (st, some e)
    | none =>
      match os st.requests with
      | SpawnResult.failed e =>
        ({ st with requests := st.requests + 1,
                   trace := st.trace ++ [Event.startProcess st.cmd.Args false] }, some e)
      | SpawnResult.exited code output =>
        ({ cmd := { st.cmd with Process := some (code, output) },
           requests := st.requests + 1,
           trace := st.trace ++ [Event.startProcess st.cmd.Args true] }, none)

/-- The method `Cmd.Wait`: records the exit status of the started process in
`ProcessState`; an error when nothing was started, when it was already called, or
when the status is not zero. -/
def Cmd.Wait (st : ExecState) : ExecState × Option GoString :=
  match st.cmd.Process with
  | none => (st, some "exec: not started".toList)
  | some (code, _) =>
    match st.cmd.ProcessState with
    | some _ => (st, some "exec: Wait was already called".toList)
    | none =>
      ({ st with cmd := { st.cmd with ProcessState := some code } },
        if code = 0 then none else some ("exit status ".toList ++ Itoa code))

/-- The method `Cmd.Run`: `Start`, then `Wait` when the start succeeded. -/
def Cmd.Run (os : Nat → SpawnResult) (st : ExecState) : ExecState × Option GoString :=
  match Cmd.Start os st with
  | (st1, some e) => (st1, some e)
  | (st1, none) => Cmd.Wait st1

/-- The method `Cmd.CombinedOutput`: an error when `Stdout` is already set, otherwise
`Run` with the output captured; the captured output is that of the process this call
started, if any. -/
def Cmd.CombinedOutput (os : Nat → SpawnResult) (st : ExecState) :
    ExecState × GoString × Option GoString :=
  if st.cmd.Stdout then (st, [], some "exec: Stdout already set".toList)
  else
    let st0 : ExecState := { st with cmd := { st.cmd with Stdout := true } }
    let r := Cmd.Run os st0
    match st0.cmd.Process, r.1.cmd.Process with
    | none, some (_, output) => (r.1, output, r.2)
    | _, _ => (r.1, [], r.2)

/-- The method `ProcessState.ExitCode`: `-1` on the `nil` pointer of a command that
has not exited. -/
def ExitCode (st : ExecState) : Int :=
  st.cmd.ProcessState.getD (-1)

/-! ## Watcher loop -/

/-- What the world presents to one iteration of `loop`: what running `xrandr`
returns, the error of looking `xfconf-query` up on the search path, and the answers
of the operating system to the successive requests to start it. -/
structure Tick where
  xrandr : CmdOutput
  lookPathErr : Option GoString
  os : Nat → SpawnResult

/-- The argument vector of the command that sets the font DPI. -/
def applyArgv (dpi : Int) : List GoString :=
  ["xfconf-query".toList, "-c".toList, "xsettings".toList, "-p".toList,
   "/Xft/DPI".toList, "-s".toList, Itoa dpi]

/-- The message of the `log.Fatalf` call for a resolution without a DPI value. -/
def cannotFindMsg (resolution fullDPIFilePathname : GoString) : GoString :=
  "Cannot find font DPI value for ".toList ++ resolution ++
  " resolution, please add it in ".toList ++ fullDPIFilePathname ++ " file.\n".toList

/-- One iteration of the `for` of `loop` from `lastResolution`: the events, and the
value of `lastResolution` for the next iteration unless the process ends. -/
def loopIteration (fullDPIFilePathname : GoString) (dpiData : StrMap)
    (lastResolution : GoString) (t : Tick) : List Event × Outcome GoString :=
  match getPrimaryScreenResolution t.xrandr with
  | Outcome.fatal d => ([Event.sleep], Outcome.fatal d)
  | Outcome.panic m => ([Event.sleep], Outcome.panic m)
  | Outcome.ok resolution =>
    if resolution = [] ∨ resolution = lastResolution then
      ([Event.sleep], Outcome.ok lastResolution)
    else
      let tr := [Event.sleep, Event.log ("Found new resolution ".toList ++ resolution),
                 Event.lookup resolution]
      match findDpiValue dpiData resolution with
      | Outcome.fatal d => (tr, Outcome.fatal d)
      | Outcome.panic m => (tr, Outcome.panic m)
      | Outcome.ok none =>
        (tr, Outcome.fatal (Diagnostic.text (cannotFindMsg resolution fullDPIFilePathname)))
      | Outcome.ok (some dpi) =>
        let st0 : ExecState :=
          { cmd := Command t.lookPathErr (applyArgv dpi), requests := 0,
            trace := tr ++ [Event.log ("Setting font DPI ".toList ++ Itoa dpi),
                            Event.command (applyArgv dpi)] }
        let st1 := (Cmd.Start t.os st0).1
        let st2 := (Cmd.Wait st1).1
        match st2.cmd.Err with
        | some e => (st2.trace, Outcome.fatal (Diagnostic.err e))
        | none =>
          if ExitCode st2 ≠ 0 then
            let r := Cmd.CombinedOutput t.os st2
            (r.1.trace, Outcome.fatal (Diagnostic.cannotSetDpi (ExitCode r.1) r.2.1))
          else (st2.trace, Outcome.ok resolution)

/-- The `for` of `loop` run over the iterations the world supplies; `Outcome.ok` is
the loop still polling with that value of `lastResolution`. -/
def loopFrom (fullDPIFilePathname : GoString) (dpiData : StrMap) :
    GoString → List Tick → List Event × Outcome GoString
  | lastResolution, [] => ([], Outcome.ok lastResolution)
  | lastResolution, t :: ts =>
    match loopIteration fullDPIFilePathname dpiData lastResolution t with
    | (tr, Outcome.ok next) =>
      let r := loopFrom fullDPIFilePathname dpiData next ts
      (tr ++ r.1, r.2)
    | (tr, Outcome.fatal d) => (tr, Outcome.fatal d)
    | (tr, Outcome.panic m) => (tr, Outcome.panic m)

/-- The function `loop`: the watcher started with `lastResolution := ""`. -/
def loop (fullDPIFilePathname : GoString) (dpiData : StrMap) (ticks : List Tick) :
    List Event × Outcome GoString :=
  loopFrom fullDPIFilePathname dpiData [] ticks

/-- The process launches among the events: the argument vectors of the requests that
started a process. -/
def launches : List Event → List (List GoString)
  | [] => []
  | Event.startProcess argv true :: rest => argv :: launches rest
  | _ :: rest => launches rest

/-- The commands built among the events: the argument vectors given to `exec.Command`. -/
def commands : List Event → List (List GoString)
  | [] => []
  | Event.command argv :: rest => argv :: commands rest
  | _ :: rest => commands rest

/-- The resolutions looked up among the events. -/
def lookups : List Event → List GoString
  | [] => []
  | Event.lookup r :: rest => r :: lookups rest
  | _ :: rest => lookups rest

/-! ## Command line -/

/-- The constant `DPIFilePathname`. -/
def DPIFilePathname : GoString := "./dpi.yaml".toList

/-- How the process ends: `log.Fatal*` (exit status 1), `os.Exit(code)` or the return
of `main` (exit status 0), a run-time panic (exit status 2), or not at all within the
iterations supplied, the loop still polling. -/
inductive Termination where
  | fatal (d : Diagnostic) : Termination
  | exit (code : Nat) : Termination
  | panic (msg : GoString) : Termination
  | polling (lastResolution : GoString) : Termination
  deriving DecidableEq, Repr

/-- The exit status of the process, when it ends. -/
def Termination.exitCode : Termination → Option Nat
  | Termination.fatal _ => some 1
  | Termination.exit code => some code
  | Termination.panic _ => some 2
  | Termination.polling _ => none

/-- What the autostart library and `os.Executable` answer. -/
structure Autostart where
  executableErr : Option GoString
  isEnabled : Bool
  enableErr : Option GoString
  disableErr : Option GoString

/-- Everything outside the process that `main` depends on. -/
structure World where
  GOOS : GoString
  openLogErr : Option GoString
  autostart : Autostart
  fullDPIFilePathname : GoString
  dpiFile : Option GoString
  writable : Bool
  unmarshal : GoString → Except GoString StrMap
  ticks : List Tick

/-- The messages of `printAppName`. -/
def printAppName : List Event :=
  [Event.log "AUTODPI v0.1".toList, Event.log [],
   Event.log "Automatic font DPI changer for the XFCE.".toList, Event.log []]

/-- The messages of `printAppInfo`. -/
def printAppInfo : List Event :=
  [Event.log "This app will automatically change font DPI for your".toList,
   Event.log "current screen resolution, for the Xfce Desktop Environment.".toList,
   Event.log [],
   Event.log ("Font DPI will be read from ".toList ++ DPIFilePathname ++ " file.".toList),
   Event.log [],
   Event.log "It reqires xrandr, xfconf-query and grep".toList,
   Event.log "commands.".toList,
   Event.log [],
   Event.log "This app can be run only on Linux.".toList,
   Event.log [],
   Event.log []]

/-- The messages of `printUsages`, the usage text. -/
def printUsages (arg0 : GoString) : List Event :=
  [Event.log ("Usage: ".toList ++ arg0 ++ " <option>".toList),
   Event.log [],
   Event.log "Options:".toList,
   Event.log "\t--install".toList,
   Event.log "\t\t\t autorun with the system".toList,
   Event.log [],
   Event.log "\t--uninstall".toList,
   Event.log "\t\t\t do not autorun with the system".toList,
   Event.log [],
   Event.log "\t--run".toList,
   Event.log "\t\t\t just run".toList,
   Event.log [],
   Event.log "\t--status".toList,
   Event.log "\t\t\t check if app (autorun) is installed".toList]

/-- The function `shouldPrintUsages`. -/
def shouldPrintUsages (Args : List GoString) : Bool :=
  let len_args := Args.length
  len_args ≠ 2 || (len_args > 1 && Args[1]? = some "--help".toList)

/-- The function `printAppStatus`, that is `checkInstalled`: every path ends in
`log.Fatal`. -/
def printAppStatus (a : Autostart) : Diagnostic :=
  match a.executableErr with
  | some e => Diagnostic.err e
  | none =>
    if a.isEnabled then Diagnostic.text "App autorun is installed.".toList
    else Diagnostic.text "App autorun is not installed.".toList

/-- The function `installAutorun`. -/
def installAutorun (a : Autostart) : List Event × Outcome Unit :=
  match a.executableErr with
  | some e => ([], Outcome.fatal (Diagnostic.err e))
  | none =>
    if a.isEnabled then ([], Outcome.fatal (Diagnostic.text "App already installed.".toList))
    else
      match a.enableErr with
      | some e => ([], Outcome.fatal (Diagnostic.err e))
      | none => ([Event.log "App installed.".toList], Outcome.ok ())

/-- The function `uninstallAutorun`. -/
def uninstallAutorun (a : Autostart) : List Event × Outcome Unit :=
  match a.executableErr with
  | some e => ([], Outcome.fatal (Diagnostic.err e))
  | none =>
    if !a.isEnabled then ([], Outcome.fatal (Diagnostic.text "App is not installed.".toList))
    else
      match a.disableErr with
      | some e => ([], Outcome.fatal (Diagnostic.err e))
      | none => ([Event.log "App uninstalled.".toList], Outcome.ok ())

/-! ## Default configuration -/

/-- The text of the given lines, each ended by a line feed. -/
def unlines (lines : List String) : GoString :=
  (lines.map (fun l => l.toList ++ ['\n'])).flatten

/-- The constant `DefaultDPI_YAML`. -/
def DefaultDPI_YAML : GoString := unlines [
  "# 96 font DPI is default on XFCE",
  "# -1 means \"no custom font DPI\"",
  "",
  "# do not add any spaces at left or right of",
  "# the resolution",
  "",
  "resolutions:",
  "  - res: 800x600",
  "    dpi: -1",
  "  - res: 1024x768",
  "    dpi: -1",
  "  - res: 1152x864",
  "    dpi: -1",
  "  - res: 1280x720",
  "    dpi: -1",
  "  - res: 1280x800",
  "    dpi: -1",
  "  - res: 1280x1024",
  "    dpi: -1",
  "  - res: 1366x664",
  "    dpi: -1",
  "  - res: 1360x768",
  "    dpi: -1",
  "  - res: 1366x768",
  "    dpi: -1",
  "  - res: 1600x900",
  "    dpi: -1",
  "  - res: 1600x1200",
  "    dpi: -1",
  "  - res: 1680x1050",
  "    dpi: -1",
  "  - res: 1920x1080",
  "    dpi: -1",
  "  - res: 1920x1200",
  "    dpi: -1",
  "  - res: 2048x1536",
  "    dpi: -1",
  "  - res: 3200x1800",
  "    dpi: 148",
  "  - res: 3840x1620",
  "    dpi: 160",
  "  - res: 3840x2160",
  "    dpi: 160"]

/-- The function `createDpiFile`, on the content of the configuration file (`none`
when `os.Stat` reports an error): an existing file is left as it is, otherwise the
default is written; the error of `os.WriteFile` is ignored. -/
def createDpiFile (fullDPIFilePathname : GoString) (dpiFile : Option GoString)
    (writable : Bool) : List Event × Option GoString :=
  match dpiFile with
  | some data => ([], some data)
  | none =>
    ([Event.log (fullDPIFilePathname ++ " does not exists, creating default.".toList),
      Event.log (fullDPIFilePathname ++ " created.".toList)],
     if writable then some DefaultDPI_YAML else none)

/-- The call `os.ReadFile` on the content of the configuration file. -/
def readFile (dpiFile : Option GoString) : Except GoString GoString :=
  match dpiFile with
  | some data => Except.ok data
  | none => Except.error "open: no such file or directory".toList

/-! ## Decoding the configuration text

The decoder `yaml.Unmarshal` is an argument of `readDpiFile`. The function below
decodes the block-style texts of the shape of the default configuration (comment
lines, blank lines, top-level keys that hold a sequence of mappings of plain
scalars) and refuses every other text. -/

/-- A decimal numeral without sign: digits, no leading zero unless it is `0`. -/
def isDecimal : GoString → Bool
  | [] => false
  | ['0'] => true
  | '0' :: _ => false
  | cs => cs.all Char.isDigit

/-- The value of a string of decimal digits. -/
def decimalValue (cs : GoString) : Nat :=
  cs.foldl (fun acc c => 10 * acc + (c.toNat - '0'.toNat)) 0

/-- The value of a plain scalar within the texts decoded here: a decimal integer is
an `int`, a token `<digits>x<digits>` is a `string`, anything else is refused. -/
def resolvePlain (v : GoString) : Option GoAny :=
  match v with
  | '-' :: ds => if isDecimal ds then some (GoAny.int (-(decimalValue ds : Int))) else none
  | _ =>
    if isDecimal v then some (GoAny.int (decimalValue v))
    else
      match Split v 'x' with
      | [w, h] =>
        if w ≠ [] ∧ h ≠ [] ∧ w.all Char.isDigit ∧ h.all Char.isDigit then some (GoAny.str v)
        else none
      | _ => none

/-- One line of a block-style text. -/
inductive YamlLine where
  | blank : YamlLine
  | key (k : GoString) : YamlLine
  | item (k : GoString) (v : GoAny) : YamlLine
  | field (k : GoString) (v : GoAny) : YamlLine
  | refused : YamlLine

/-- The pair of a line `<key>: <plain scalar>`, the key being lower-case letters. -/
def keyValue (cs : GoString) : Option (GoString × GoAny) :=
  let k := cs.takeWhile Char.isLower
  match cs.dropWhile Char.isLower with
  | ':' :: ' ' :: v => if k = [] then none else (resolvePlain v).map (fun a => (k, a))
  | _ => none

/-- The kind of one line: a comment or empty line, `<key>:` in the first column,
`  - <key>: <value>` opening a mapping of the sequence, or `    <key>: <value>`
continuing it. -/
def classifyLine (line : GoString) : YamlLine :=
  match line with
  | [] => YamlLine.blank
  | '#' :: _ => YamlLine.blank
  | ' ' :: ' ' :: '-' :: ' ' :: rest =>
    match keyValue rest with
    | some (k, v) => YamlLine.item k v
    | none => YamlLine.refused
  | ' ' :: ' ' :: ' ' :: ' ' :: rest =>
    match keyValue rest with
    | some (k, v) => YamlLine.field k v
    | none => YamlLine.refused
  | _ =>
    let k := line.takeWhile Char.isLower
    if k ≠ [] ∧ line.dropWhile Char.isLower = [':'] then YamlLine.key k else YamlLine.refused

/-- The top-level keys read so far, the last one first, each with its mappings, the
last one first. -/
abbrev YamlAcc := List (GoString × List StrMap)

/-- Adds one line to what was read; `none` when the text is refused: a mapping line
outside a sequence, or a key that its mapping already has. -/
def addLine (acc : YamlAcc) (line : YamlLine) : Option YamlAcc :=
  match line, acc with
  | YamlLine.blank, _ => some acc
  | YamlLine.refused, _ => none
  | YamlLine.key k, _ => if (acc.map Prod.fst).contains k then none else some ((k, []) :: acc)
  | YamlLine.item _ _, [] => none
  | YamlLine.item k v, (top, items) :: done => some ((top, [(k, v)] :: items) :: done)
  | YamlLine.field _ _, [] => none
  | YamlLine.field _ _, (_, []) :: _ => none
  | YamlLine.field k v, (top, cur :: items) :: done =>
    if (mapIndex cur k).isSome then none else some ((top, (cur ++ [(k, v)]) :: items) :: done)

/-- Adds the lines in order. -/
def addLines : YamlAcc → List YamlLine → Option YamlAcc
  | acc, [] => some acc
  | acc, line :: rest =>
    match addLine acc line with
    | none => none
    | some next => addLines next rest

/-- The decoder of block-style configuration texts into a `map[string]any`. A key
without mappings under it is refused. -/
def unmarshalBlock (data : GoString) : Except GoString StrMap :=
  match addLines [] ((Split data '\n').map classifyLine) with
  | none => Except.error "yaml: text outside the block style decoded here".toList
  | some acc =>
    if acc.any (fun kv => kv.2.isEmpty) then
      Except.error "yaml: text outside the block style decoded here".toList
    else
      Except.ok (acc.reverse.map (fun kv => (kv.1, GoAny.slice (kv.2.reverse.map GoAny.strMap))))

/-! ## The function `main` -/

/-- The branch `--run` of `main`: `createDpiFile`, `readDpiFile`, `loop`. -/
def runCore (w : World) : List Event × Termination :=
  let created := createDpiFile w.fullDPIFilePathname w.dpiFile w.writable
  match readDpiFile w.fullDPIFilePathname (readFile created.2) w.unmarshal with
  | Outcome.fatal d => (created.1, Termination.fatal d)
  | Outcome.panic m => (created.1, Termination.panic m)
  | Outcome.ok dpiData =>
    match loop w.fullDPIFilePathname dpiData w.ticks with
    | (tr, Outcome.ok lastResolution) => (created.1 ++ tr, Termination.polling lastResolution)
    | (tr, Outcome.fatal d) => (created.1 ++ tr, Termination.fatal d)
    | (tr, Outcome.panic m) => (created.1 ++ tr, Termination.panic m)

/-- The function `main` on the argument vector `os.Args`: the events and how the
process ends. -/
def main (w : World) (Args : List GoString) : List Event × Termination :=
  match Args[0]? with
  | none => ([], Termination.panic "index out of range [0]".toList)
  | some arg0 =>
    match w.openLogErr with
    | some e => ([], Termination.panic e)
    | none =>
      if w.GOOS ≠ "linux".toList then
        (printAppName,
          Termination.fatal (Diagnostic.text "This app can be used only on Linux.".toList))
      else if shouldPrintUsages Args then
        (printAppName ++ printAppInfo ++ printUsages arg0, Termination.exit 1)
      else
        match Args[1]? with
        | none => (printAppName, Termination.panic "index out of range [1]".toList)
        | some option =>
          if option = "--status".toList then
            (printAppName, Termination.fatal (printAppStatus w.autostart))
          else if option = "--install".toList then
            match installAutorun w.autostart with
            | (tr, Outcome.ok _) => (printAppName ++ tr, Termination.exit 0)
            | (tr, Outcome.fatal d) => (printAppName ++ tr, Termination.fatal d)
            | (tr, Outcome.panic m) => (printAppName ++ tr, Termination.panic m)
          else if option = "--uninstall".toList then
            match uninstallAutorun w.autostart with
            | (tr, Outcome.ok _) => (printAppName ++ tr, Termination.exit 0)
            | (tr, Outcome.fatal d) => (printAppName ++ tr, Termination.fatal d)
            | (tr, Outcome.panic m) => (printAppName ++ tr, Termination.panic m)
          else if option = "--run".toList then
            let r := runCore w
            (printAppName ++ r.1, r.2)
          else
            (printAppName ++ printAppInfo ++ printUsages arg0, Termination.exit 0)

/-- The entry of a mapping table as `yaml.Unmarshal` stores it. -/
def entry (res : String) (dpi : Int) : GoAny :=
  GoAny.strMap [("res".toList, GoAny.str res.toList), ("dpi".toList, GoAny.int dpi)]

/-- The decoded default configuration. -/
def defaultDpiData : StrMap :=
  [("resolutions".toList, GoAny.slice [
    entry "800x600" (-1), entry "1024x768" (-1), entry "1152x864" (-1),
    entry "1280x720" (-1), entry "1280x800" (-1), entry "1280x1024" (-1),
    entry "1366x664" (-1), entry "1360x768" (-1), entry "1366x768" (-1),
    entry "1600x900" (-1), entry "1600x1200" (-1), entry "1680x1050" (-1),
    entry "1920x1080" (-1), entry "1920x1200" (-1), entry "2048x1536" (-1),
    entry "3200x1800" 148, entry "3840x1620" 160, entry "3840x2160" 160])]

/-! ## Mapping tables -/

/-- The `res` and `dpi` of one entry of a mapping table, when the entry is a mapping
with a string under `res` and an `int` under `dpi`. -/
def entryPair : GoAny → Option (GoString × Int)
  | GoAny.strMap m =>
    match mapGet m "res".toList, mapGet m "dpi".toList with
    | GoAny.str r, GoAny.int d => some (r, d)
    | _, _ => none
  | _ => none

/-- The pairs of the entries, in order, when every one has a pair. -/
def entryPairs : List GoAny → Option (List (GoString × Int))
  | [] => some []
  | x :: xs =>
    match entryPair x, entryPairs xs with
    | some e, some es => some (e :: es)
    | _, _ => none

/-- The mapping table held by `dpiData`: the `res` and `dpi` of the entries of
`dpiData["resolutions"]`, in sequence order. -/
def tableOf (dpiData : StrMap) : Option (List (GoString × Int)) :=
  match mapGet dpiData "resolutions".toList with
  | GoAny.slice entries => entryPairs entries
  | _ => none

/-- The `dpi` of the first pair of the table whose `res` is `resolution`. -/
def firstMatch : List (GoString × Int) → GoString → Option Int
  | [], _ => none
  | (r, d) :: rest, resolution => if r = resolution then some d else firstMatch rest resolution

/-- A configuration text in which the resolution `1920x1080` occurs twice. -/
def repeatedText : GoString := unlines [
  "resolutions:",
  "  - res: 1920x1080",
  "    dpi: 96",
  "  - res: 1920x1080",
  "    dpi: 120",
  "  - res: 800x600",
  "    dpi: -1"]

/-- The table of `repeatedText`. -/
def repeatedTable : List (GoString × Int) :=
  [("1920x1080".toList, 96), ("1920x1080".toList, 120), ("800x600".toList, -1)]

/-- The decoded `repeatedText`. -/
def repeatedData : StrMap :=
  [("resolutions".toList, GoAny.slice [
    entry "1920x1080" 96, entry "1920x1080" 120, entry "800x600" (-1)])]

/-- An output of `xrandr` with a primary display. -/
def xrandrOutput : GoString := unlines [
  "Screen 0: minimum 1 x 1, current 1366 x 768, maximum 8192 x 8192",
  "Virtual1 connected primary 1366x768+0+0 (normal left inverted right x axis y axis) 0mm x 0mm",
  "   1366x768      60.00*+",
  "Virtual2 disconnected (normal left inverted right x axis y axis)"]

/-- An iteration in which `xrandr` reports `1920x1080` as the primary resolution and
`xfconf-query` runs and exits with status 0. -/
def tick1920 : Tick :=
  { xrandr := ⟨unlines [
      "Screen 0: minimum 320 x 200, current 1920 x 1080, maximum 16384 x 16384",
      "eDP-1 connected primary 1920x1080+0+0 (normal left inverted right x axis y axis) 344mm x 194mm",
      "   1920x1080     60.02*+"], none⟩,
    lookPathErr := none,
    os := fun _ => SpawnResult.exited 0 [] }

/-- An iteration in which `xrandr` reports `2560x1440`, absent from the default table. -/
def tick2560 : Tick :=
  { xrandr := ⟨unlines [
      "Screen 0: minimum 320 x 200, current 2560 x 1440, maximum 16384 x 16384",
      "DP-1 connected primary 2560x1440+0+0 (normal left inverted right x axis y axis) 597mm x 336mm"],
      none⟩,
    lookPathErr := none,
    os := fun _ => SpawnResult.exited 0 [] }

/-- An output of `xrandr` without a primary display. -/
def xrandrOutputNoPrimary : GoString := unlines [
  "Screen 0: minimum 1 x 1, current 1366 x 768, maximum 8192 x 8192",
  "Virtual1 connected 1366x768+0+0 (normal left inverted right x axis y axis) 0mm x 0mm",
  "   1366x768      60.00*+"]

/-- The table of the default configuration: the resolutions with the value written
next to each. -/
def defaultTable : List (GoString × Int) :=
  [("800x600".toList, -1), ("1024x768".toList, -1), ("1152x864".toList, -1),
   ("1280x720".toList, -1), ("1280x800".toList, -1), ("1280x1024".toList, -1),
   ("1366x664".toList, -1), ("1360x768".toList, -1), ("1366x768".toList, -1),
   ("1600x900".toList, -1), ("1600x1200".toList, -1), ("1680x1050".toList, -1),
   ("1920x1080".toList, -1), ("1920x1200".toList, -1), ("2048x1536".toList, -1),
   ("3200x1800".toList, 148), ("3840x1620".toList, 160), ("3840x2160".toList, 160)]

/-- A world on Linux in which the log file opens, autostart is not registered, the
configuration file is absent and `xrandr` reports `1920x1080` once. -/
def linuxWorld : World :=
  { GOOS := "linux".toList,
    openLogErr := none,
    autostart := { executableErr := none, isEnabled := false, enableErr := none,
                   disableErr := none },
    fullDPIFilePathname := "/home/user/dpi.yaml".toList,
    dpiFile := none,
    writable := true,
    unmarshal := unmarshalBlock,
    ticks := [tick1920] }

/-! ## Lookup in a loaded table -/

theorem mapGet_of_mapIndex {m : StrMap} {k : GoString} {v : GoAny}
    (h : mapIndex m k = some v) : mapGet m k = v := by
  simp [mapGet, h]

theorem firstMatch_eq_none_iff (table : List (GoString × Int)) (R : GoString) :
    firstMatch table R = none ↔ ∀ e ∈ table, e.1 ≠ R := by
  induction table with
  | nil => simp [firstMatch]
  | cons e rest ih =>
    obtain ⟨r, d⟩ := e
    by_cases hr : r = R
    · simp [firstMatch, hr]
    · simp [firstMatch, hr, ih]

theorem firstMatch_eq_some_iff (table : List (GoString × Int)) (R : GoString) (D : Int) :
    firstMatch table R = some D ↔
      ∃ before after, table = before ++ (R, D) :: after ∧ ∀ e ∈ before, e.1 ≠ R := by
  induction table with
  | nil => simp [firstMatch]
  | cons e rest ih =>
    obtain ⟨r, d⟩ := e
    by_cases hr : r = R
    · subst hr
      simp only [firstMatch, if_true, Option.some.injEq]
      constructor
      · rintro rfl
        exact ⟨[], rest, rfl, by simp⟩
      · rintro ⟨before, after, heq, hb⟩
        cases before with
        | nil => simp at heq; exact heq.1
        | cons b bs =>
          simp only [List.cons_append, List.cons.injEq] at heq
          exact absurd (congrArg Prod.fst heq.1).symm (hb b (by simp))
    · simp only [firstMatch, hr, if_false, ih]
      constructor
      · rintro ⟨before, after, rfl, hb⟩
        refine ⟨(r, d) :: before, after, rfl, ?_⟩
        intro e he
        rcases List.mem_cons.mp he with rfl | he
        · exact hr
        · exact hb e he
      · rintro ⟨before, after, heq, hb⟩
        cases before with
        | nil =>
          simp only [List.nil_append, List.cons.injEq, Prod.mk.injEq] at heq
          exact absurd heq.1.1 hr
        | cons b bs =>
          simp only [List.cons_append, List.cons.injEq] at heq
          exact ⟨bs, after, heq.2, fun e he => hb e (List.mem_cons_of_mem _ he)⟩

/-- On entries that pass the checks of `readDpiFile`, every entry has a pair and the
lookup loop returns the first match. -/
theorem findDpiValueLoop_of_checkEntries (path R : GoString) (entries : List GoAny)
    (h : checkEntries path entries = Outcome.ok ()) :
    ∃ table, entryPairs entries = some table ∧
      findDpiValueLoop R entries = Outcome.ok (firstMatch table R) := by
  induction entries with
  | nil => exact ⟨[], rfl, rfl⟩
  | cons x xs ih =>
    cases x with
    | strMap m =>
      simp only [checkEntries] at h
      split at h
      · exact absurd h (by simp)
      · rename_i dpi hdpi
        split at h
        · exact absurd h (by simp)
        · rename_i res hres
          split at h
          · exact absurd h (by simp)
          · cases dpi with
            | int d =>
              simp only at h
              obtain ⟨table, ht, hl⟩ := ih h
              have hres1 := mapGet_of_mapIndex hres
              have hdpi1 := mapGet_of_mapIndex hdpi
              refine ⟨(res, d) :: table, ?_, ?_⟩
              · simp only [entryPairs, entryPair, hres1, hdpi1, ht]
              · by_cases hr : res = R
                · simp only [findDpiValueLoop, hres1, hdpi1, ifaceEqString, firstMatch, hr,
                    decide_True, if_true]
                · simp only [findDpiValueLoop, hres1, ifaceEqString, firstMatch, hr,
                    decide_False, if_false, hl, Bool.false_eq_true]
            | _ => exact absurd h (by simp)
        · exact absurd h (by simp)
    | _ => exact absurd h (by simp [checkEntries])

theorem checkDpiData_of_readDpiFile {path : GoString} {file : Except GoString GoString}
    {unmarshal : GoString → Except GoString StrMap} {dpiData : StrMap}
    (h : readDpiFile path file unmarshal = Outcome.ok dpiData) :
    checkDpiData path dpiData = Outcome.ok () := by
  unfold readDpiFile at h
  split at h
  · exact absurd h (by simp)
  · split at h
    · exact absurd h (by simp)
    · split at h
      · rename_i hc
        simp only [Outcome.ok.injEq] at h
        subst h
        exact hc
      · exact absurd h (by simp)
      · exact absurd h (by simp)

/-- A configuration that passed the checks holds a table, and `findDpiValue` returns
the first match of that table for every resolution. -/
theorem findDpiValue_of_checkDpiData {path : GoString} {dpiData : StrMap}
    (h : checkDpiData path dpiData = Outcome.ok ()) :
    ∃ table, tableOf dpiData = some table ∧
      ∀ R, findDpiValue dpiData R = Outcome.ok (firstMatch table R) := by
  unfold checkDpiData at h
  split at h
  · exact absurd h (by simp)
  · rename_i entries hres
    have hget := mapGet_of_mapIndex hres
    obtain ⟨table, ht, -⟩ := findDpiValueLoop_of_checkEntries path [] entries h
    refine ⟨table, ?_, ?_⟩
    · simp only [tableOf, hget, ht]
    · intro R
      obtain ⟨table2, ht2, hl⟩ := findDpiValueLoop_of_checkEntries path R entries h
      rw [ht] at ht2
      simp only [Option.some.injEq] at ht2
      subst ht2
      simp only [findDpiValue, hget, hl]
  · exact absurd h (by simp)

/-- C1: for every mapping table loaded by `readDpiFile` (an ordered sequence of
res/dpi entries, duplicates allowed) and every resolution string `R`, `findDpiValue`
returns without panic; it returns the dpi `D` exactly when the table is
`before ++ (R, D) :: after` with no entry of `before` having res `R` (the first entry
in sequence order whose res equals `R`), and it returns the nil pointer if and only
if no entry has res equal to `R`, equality being equality of strings. -/
theorem findDpiValue_first_match (path : GoString) (file : Except GoString GoString)
    (unmarshal : GoString → Except GoString StrMap) (dpiData : StrMap) (R : GoString)
    (h : readDpiFile path file unmarshal = Outcome.ok dpiData) :
    ∃ table, tableOf dpiData = some table ∧
      findDpiValue dpiData R = Outcome.ok (firstMatch table R) ∧
      (∀ D, findDpiValue dpiData R = Outcome.ok (some D) ↔
        ∃ before after, table = before ++ (R, D) :: after ∧ ∀ e ∈ before, e.1 ≠ R) ∧
      (findDpiValue dpiData R = Outcome.ok none ↔ ∀ e ∈ table, e.1 ≠ R) := by
  obtain ⟨table, ht, hf⟩ := findDpiValue_of_checkDpiData (checkDpiData_of_readDpiFile h)
  refine ⟨table, ht, hf R, ?_, ?_⟩
  · intro D
    rw [hf R, Outcome.ok.injEq]
    exact firstMatch_eq_some_iff table R D
  · rw [hf R, Outcome.ok.injEq]
    exact firstMatch_eq_none_iff table R

theorem findDpiValue_first_match_witness :
    readDpiFile DPIFilePathname (Except.ok repeatedText) unmarshalBlock
        = Outcome.ok repeatedData ∧
      ∃ table, tableOf repeatedData = some table ∧
        findDpiValue repeatedData "1920x1080".toList
          = Outcome.ok (firstMatch table "1920x1080".toList) ∧
        (∀ D, findDpiValue repeatedData "1920x1080".toList = Outcome.ok (some D) ↔
          ∃ before after, table = before ++ ("1920x1080".toList, D) :: after ∧
            ∀ e ∈ before, e.1 ≠ "1920x1080".toList) ∧
        (findDpiValue repeatedData "1920x1080".toList = Outcome.ok none ↔
          ∀ e ∈ table, e.1 ≠ "1920x1080".toList) :=
  ⟨rfl, findDpiValue_first_match DPIFilePathname (Except.ok repeatedText) unmarshalBlock
    repeatedData "1920x1080".toList rfl⟩

/-- C2, as stated, fails: the loaded table of `repeatedText` contains the entry
`(1920x1080, 120)`, and looking `1920x1080` up returns 96, the dpi of the earlier
entry with that res. -/
theorem findDpiValue_member_counterexample :
    readDpiFile DPIFilePathname (Except.ok repeatedText) unmarshalBlock
        = Outcome.ok repeatedData ∧
      tableOf repeatedData = some repeatedTable ∧
      ("1920x1080".toList, (120 : Int)) ∈ repeatedTable ∧
      findDpiValue repeatedData "1920x1080".toList = Outcome.ok (some 96) ∧
      findDpiValue repeatedData "1920x1080".toList ≠ Outcome.ok (some 120) :=
  ⟨rfl, by decide, by decide, by decide, by decide⟩

/-- C2, amended: for all loaded mapping tables containing an entry `(R, D)`, looking
`R` up returns the dpi of the first entry whose res is `R`, an entry of the table,
which is `D` when no earlier entry has res `R`; and looking up any string that is
not the res of any entry returns the nil pointer. -/
theorem findDpiValue_member (path : GoString) (file : Except GoString GoString)
    (unmarshal : GoString → Except GoString StrMap) (dpiData : StrMap)
    (table : List (GoString × Int)) (R : GoString) (D : Int)
    (h : readDpiFile path file unmarshal = Outcome.ok dpiData)
    (ht : tableOf dpiData = some table) :
    ((R, D) ∈ table →
      ∃ first, findDpiValue dpiData R = Outcome.ok (some first) ∧ (R, first) ∈ table ∧
        ∃ before after, table = before ++ (R, first) :: after ∧ ∀ e ∈ before, e.1 ≠ R) ∧
    (∀ before after, table = before ++ (R, D) :: after → (∀ e ∈ before, e.1 ≠ R) →
      findDpiValue dpiData R = Outcome.ok (some D)) ∧
    ((∀ e ∈ table, e.1 ≠ R) → findDpiValue dpiData R = Outcome.ok none) := by
  obtain ⟨table2, ht2, hf⟩ := findDpiValue_of_checkDpiData (checkDpiData_of_readDpiFile h)
  rw [ht] at ht2
  simp only [Option.some.injEq] at ht2
  subst ht2
  refine ⟨?_, ?_, ?_⟩
  · intro hmem
    cases hfm : firstMatch table R with
    | none =>
      exact absurd rfl ((firstMatch_eq_none_iff table R).mp hfm (R, D) hmem)
    | some first =>
      obtain ⟨before, after, heq, hb⟩ := (firstMatch_eq_some_iff table R first).mp hfm
      refine ⟨first, by rw [hf R, hfm], ?_, before, after, heq, hb⟩
      rw [heq]
      simp
  · intro before after heq hb
    rw [hf R, (firstMatch_eq_some_iff table R D).mpr ⟨before, after, heq, hb⟩]
  · intro hno
    rw [hf R, (firstMatch_eq_none_iff table R).mpr hno]

theorem findDpiValue_member_witness :
    readDpiFile DPIFilePathname (Except.ok repeatedText) unmarshalBlock
        = Outcome.ok repeatedData ∧
      tableOf repeatedData = some repeatedTable ∧
      ("1920x1080".toList, (120 : Int)) ∈ repeatedTable ∧
      (∃ first, findDpiValue repeatedData "1920x1080".toList = Outcome.ok (some first) ∧
        ("1920x1080".toList, first) ∈ repeatedTable ∧
        ∃ before after, repeatedTable = before ++ ("1920x1080".toList, first) :: after ∧
          ∀ e ∈ before, e.1 ≠ "1920x1080".toList) ∧
      findDpiValue repeatedData "800x600".toList = Outcome.ok (some (-1)) ∧
      ((∀ e ∈ repeatedTable, e.1 ≠ "1024x768".toList) →
        findDpiValue repeatedData "1024x768".toList = Outcome.ok none) :=
  ⟨rfl, by decide, by decide,
   (findDpiValue_member DPIFilePathname (Except.ok repeatedText) unmarshalBlock repeatedData
      repeatedTable "1920x1080".toList 120 rfl (by decide)).1 (by decide),
   (findDpiValue_member DPIFilePathname (Except.ok repeatedText) unmarshalBlock repeatedData
      repeatedTable "800x600".toList (-1) rfl (by decide)).2.1
      [("1920x1080".toList, 96), ("1920x1080".toList, 120)] [] (by decide) (by decide),
   (findDpiValue_member DPIFilePathname (Except.ok repeatedText) unmarshalBlock repeatedData
      repeatedTable "1024x768".toList 0 rfl (by decide)).2.2⟩

/-! ## Display probe -/

theorem scanLines_no_marker (lines : List GoString)
    (h : ∀ line ∈ lines, Contains (TrimSpace line) primaryMarker = false) :
    scanLines lines = Outcome.ok [] := by
  induction lines with
  | nil => rfl
  | cons line rest ih =>
    have h1 := h line (List.mem_cons_self _ _)
    simp only [scanLines, h1, Bool.false_eq_true, if_false]
    exact ih (fun l hl => h l (List.mem_cons_of_mem _ hl))

/-- C7, as stated, fails: when running `xrandr` returns an error (here the executable
is not found), `getPrimaryScreenResolution` ends the process with `log.Fatalln`
instead of returning the empty string, and the iteration of the loop ends with it. -/
theorem getPrimaryScreenResolution_unavailable_counterexample :
    getPrimaryScreenResolution ⟨[], some "exec: xrandr: executable file not found".toList⟩
        = Outcome.fatal (Diagnostic.err "exec: xrandr: executable file not found".toList) ∧
      getPrimaryScreenResolution ⟨[], some "exec: xrandr: executable file not found".toList⟩
        ≠ Outcome.ok [] ∧
      loopIteration DPIFilePathname defaultDpiData []
          ⟨⟨[], some "exec: xrandr: executable file not found".toList⟩, none,
            fun _ => SpawnResult.exited 0 []⟩
        = ([Event.sleep],
           Outcome.fatal (Diagnostic.err "exec: xrandr: executable file not found".toList)) :=
  ⟨by decide, by decide, by decide⟩

/-- C7, amended: `getPrimaryScreenResolution` returns the empty string when running
`xrandr` succeeds and no line of its output contains the primary-display marker, and
the iteration of the loop then continues with `lastResolution` unchanged and no
further action; when the tool is unavailable or its invocation fails it ends the
process with a fatal diagnostic carrying that error. -/
theorem getPrimaryScreenResolution_no_signal (xrandr : CmdOutput) :
    (xrandr.err = none →
      (∀ line ∈ Split xrandr.output '\n', Contains (TrimSpace line) primaryMarker = false) →
      getPrimaryScreenResolution xrandr = Outcome.ok [] ∧
      ∀ (path : GoString) (dpiData : StrMap) (lastResolution : GoString) (t : Tick),
        t.xrandr = xrandr →
        loopIteration path dpiData lastResolution t
          = ([Event.sleep], Outcome.ok lastResolution)) ∧
    (∀ e, xrandr.err = some e →
      getPrimaryScreenResolution xrandr = Outcome.fatal (Diagnostic.err e) ∧
      ∀ (path : GoString) (dpiData : StrMap) (lastResolution : GoString) (t : Tick),
        t.xrandr = xrandr →
        loopIteration path dpiData lastResolution t
          = ([Event.sleep], Outcome.fatal (Diagnostic.err e))) := by
  constructor
  · intro herr hlines
    have hres : getPrimaryScreenResolution xrandr = Outcome.ok [] := by
      simp only [getPrimaryScreenResolution, herr]
      exact scanLines_no_marker _ hlines
    refine ⟨hres, ?_⟩
    intro path dpiData lastResolution t ht
    simp only [loopIteration, ht, hres, true_or, if_true]
  · intro e herr
    have hres : getPrimaryScreenResolution xrandr = Outcome.fatal (Diagnostic.err e) := by
      simp only [getPrimaryScreenResolution, herr]
    refine ⟨hres, ?_⟩
    intro path dpiData lastResolution t ht
    simp only [loopIteration, ht, hres]

theorem getPrimaryScreenResolution_no_signal_witness :
    (getPrimaryScreenResolution ⟨"Screen 0: minimum 1 x 1\nVirtual1 connected 800x600+0+0\n".toList, none⟩
        = Outcome.ok [] ∧
      ∀ (path : GoString) (dpiData : StrMap) (lastResolution : GoString) (t : Tick),
        t.xrandr = ⟨"Screen 0: minimum 1 x 1\nVirtual1 connected 800x600+0+0\n".toList, none⟩ →
        loopIteration path dpiData lastResolution t
          = ([Event.sleep], Outcome.ok lastResolution)) ∧
    (getPrimaryScreenResolution ⟨[], some "exit status 1".toList⟩
        = Outcome.fatal (Diagnostic.err "exit status 1".toList) ∧
      ∀ (path : GoString) (dpiData : StrMap) (lastResolution : GoString) (t : Tick),
        t.xrandr = ⟨[], some "exit status 1".toList⟩ →
        loopIteration path dpiData lastResolution t
          = ([Event.sleep], Outcome.fatal (Diagnostic.err "exit status 1".toList))) :=
  ⟨(getPrimaryScreenResolution_no_signal
      ⟨"Screen 0: minimum 1 x 1\nVirtual1 connected 800x600+0+0\n".toList, none⟩).1 rfl
      (by decide),
   (getPrimaryScreenResolution_no_signal ⟨[], some "exit status 1".toList⟩).2
      "exit status 1".toList rfl⟩


theorem Split_ne_nil (s : GoString) (sep : Char) : Split s sep ≠ [] := by
  induction s with
  | nil => simp [Split]
  | cons c cs ih =>
    simp only [Split]
    split
    · simp
    · split <;> simp

theorem Split_length (s : GoString) (sep : Char) :
    (Split s sep).length = s.count sep + 1 := by
  induction s with
  | nil => simp [Split]
  | cons c cs ih =>
    simp only [Split]
    by_cases hc : c = sep
    · subst hc
      simp [ih]
    · rw [if_neg hc, List.count_cons_of_ne (Ne.symm hc)]
      rw [← ih]
      split
      · rename_i h
        exact absurd h (Split_ne_nil cs sep)
      · rename_i h
        simp [h]

theorem HasPrefix_iff (s p : GoString) : HasPrefix s p = true ↔ ∃ t, s = p ++ t := by
  induction p generalizing s with
  | nil => simp [HasPrefix]
  | cons a p ih =>
    cases s with
    | nil => simp [HasPrefix]
    | cons c cs =>
      simp only [HasPrefix, Bool.and_eq_true, decide_eq_true_eq, ih, List.cons_append,
        List.cons.injEq]
      constructor
      · rintro ⟨rfl, t, rfl⟩
        exact ⟨t, rfl, rfl⟩
      · rintro ⟨t, rfl, rfl⟩
        exact ⟨rfl, t, rfl⟩

theorem Contains_iff (s sub : GoString) :
    Contains s sub = true ↔ ∃ a b, s = a ++ sub ++ b := by
  induction s with
  | nil =>
    simp only [Contains, HasPrefix_iff]
    constructor
    · rintro ⟨t, h⟩
      exact ⟨[], t, by simpa using h⟩
    · rintro ⟨a, b, h⟩
      have h1 : a = [] := by
        cases a with
        | nil => rfl
        | cons x xs => simp at h
      subst h1
      exact ⟨b, by simpa using h⟩
  | cons c cs ih =>
    simp only [Contains, Bool.or_eq_true, HasPrefix_iff, ih]
    constructor
    · rintro (⟨t, h⟩ | ⟨a, b, h⟩)
      · exact ⟨[], t, by simpa using h⟩
      · exact ⟨c :: a, b, by simp [h]⟩
    · rintro ⟨a, b, h⟩
      cases a with
      | nil => exact Or.inl ⟨b, by simpa using h⟩
      | cons x xs =>
        simp only [List.cons_append, List.cons.injEq] at h
        exact Or.inr ⟨xs, b, by simp [h.2]⟩


theorem Split_head (s : GoString) (sep : Char) :
    (Split s sep)[0]? = some (s.takeWhile (fun c => c != sep)) := by
  induction s with
  | nil => simp [Split]
  | cons c cs ih =>
    simp only [Split]
    by_cases hc : c = sep
    · subst hc
      simp
    · rw [if_neg hc]
      have htw : List.takeWhile (fun c => c != sep) (c :: cs)
          = c :: List.takeWhile (fun c => c != sep) cs := by
        simp [List.takeWhile_cons, hc]
      rw [htw]
      split
      · rename_i h
        exact absurd h (Split_ne_nil cs sep)
      · rename_i piece pieces h
        rw [h] at ih
        simp only [List.getElem?_cons_zero, Option.some.injEq] at ih
        simp [ih]

theorem Split_append_sep (a b : GoString) (sep : Char) (ha : sep ∉ a) :
    Split (a ++ sep :: b) sep = a :: Split b sep := by
  induction a with
  | nil => simp [Split]
  | cons c cs ih =>
    have hc : c ≠ sep := fun h => ha (by simp [h])
    have hcs : sep ∉ cs := fun h => ha (List.mem_cons_of_mem _ h)
    simp only [List.cons_append, Split, if_neg hc, List.append_eq, ih hcs]

theorem not_mem_takeWhile_ne (s : GoString) (sep : Char) :
    sep ∉ s.takeWhile (fun c => c != sep) := by
  intro h
  have := List.mem_takeWhile_imp h
  simp at this

theorem Split_index3_of_contains (s : GoString) (h : Contains s primaryMarker = true) :
    ∃ field, (Split s ' ')[3]? = some field := by
  obtain ⟨a, b, rfl⟩ := (Contains_iff s primaryMarker).mp h
  have hlen : 3 < (Split (a ++ primaryMarker ++ b) ' ').length := by
    rw [Split_length, List.count_append, List.count_append]
    have : List.count ' ' primaryMarker = 3 := by decide
    omega
  exact ⟨(Split (a ++ primaryMarker ++ b) ' ')[3], List.getElem?_eq_getElem hlen⟩

theorem scanLines_marker_line (line : GoString) (rest : List GoString)
    (h : Contains (TrimSpace line) primaryMarker = true) :
    ∃ field, (Split (TrimSpace line) ' ')[3]? = some field ∧
      scanLines (line :: rest) = Outcome.ok (field.takeWhile (fun c => c != '+')) := by
  obtain ⟨field, hf⟩ := Split_index3_of_contains _ h
  refine ⟨field, hf, ?_⟩
  simp only [scanLines, h, if_true, hf, Split_head]

theorem scanLines_skip (before lines : List GoString)
    (h : ∀ l ∈ before, Contains (TrimSpace l) primaryMarker = false) :
    scanLines (before ++ lines) = scanLines lines := by
  induction before with
  | nil => rfl
  | cons l ls ih =>
    have h1 := h l (List.mem_cons_self _ _)
    simp only [List.cons_append, scanLines, h1, Bool.false_eq_true, if_false]
    exact ih (fun x hx => h x (List.mem_cons_of_mem _ hx))

theorem scanLines_total (lines : List GoString) :
    ∃ r, scanLines lines = Outcome.ok r ∧ '+' ∉ r := by
  induction lines with
  | nil => exact ⟨[], rfl, by simp⟩
  | cons line rest ih =>
    by_cases h : Contains (TrimSpace line) primaryMarker = true
    · obtain ⟨field, -, hs⟩ := scanLines_marker_line line rest h
      exact ⟨_, hs, not_mem_takeWhile_ne field '+'⟩
    · simp only [scanLines, h, if_false]
      exact ih


theorem dropWhile_append_stop (p : Char → Bool) (u v : GoString) (a : Char)
    (ha : p a = false) : (u ++ a :: v).dropWhile p = u.dropWhile p ++ a :: v := by
  induction u with
  | nil => simp [List.dropWhile, ha]
  | cons c cs ih =>
    by_cases hc : p c = true
    · simp [List.dropWhile, hc, ih]
    · simp [List.dropWhile, hc]

theorem TrimSpace_keep (c a : Char) (body tail : GoString)
    (hc : isSpace c = false) (ha : isSpace a = false) :
    TrimSpace (c :: (body ++ a :: tail))
      = c :: (body ++ a :: (tail.reverse.dropWhile isSpace).reverse) := by
  have h1 : (c :: (body ++ a :: tail)).dropWhile isSpace = c :: (body ++ a :: tail) := by
    simp [List.dropWhile, hc]
  have h2 : (c :: (body ++ a :: tail)).reverse
      = tail.reverse ++ a :: (c :: body).reverse := by simp
  unfold TrimSpace
  rw [h1, h2, dropWhile_append_stop isSpace _ _ a ha]
  simp only [List.reverse_append, List.reverse_cons, List.reverse_reverse, List.append_assoc,
    List.singleton_append, List.cons_append, List.nil_append, List.reverse_nil]

theorem takeWhile_append_stop (p : Char → Bool) (u v : GoString) (a : Char)
    (hu : ∀ c ∈ u, p c = true) (ha : p a = false) : (u ++ a :: v).takeWhile p = u := by
  induction u with
  | nil => simp [List.takeWhile, ha]
  | cons c cs ih =>
    have hc := hu c (List.mem_cons_self _ _)
    simp only [List.cons_append, List.takeWhile, hc, List.append_eq]
    rw [ih (fun x hx => hu x (List.mem_cons_of_mem _ hx))]

theorem takeWhile_append_pass (p : Char → Bool) (u v : GoString)
    (hu : ∀ c ∈ u, p c = true) : (u ++ v).takeWhile p = u ++ v.takeWhile p := by
  induction u with
  | nil => rfl
  | cons c cs ih =>
    have hc := hu c (List.mem_cons_self _ _)
    simp only [List.cons_append, List.takeWhile, hc, List.append_eq]
    rw [ih (fun x hx => hu x (List.mem_cons_of_mem _ hx))]

theorem isDigit_not_sep (c : Char) (h : c.isDigit = true) :
    isSpace c = false ∧ c ≠ ' ' ∧ c ≠ '+' := by
  refine ⟨?_, ?_, ?_⟩
  · simp only [Char.isDigit, Bool.and_eq_true, decide_eq_true_eq] at h
    have h1 : 48 ≤ c.toNat := h.1
    have h2 : c.toNat ≤ 57 := h.2
    simp only [isSpace]
    simp
    omega
  · rintro rfl
    exact absurd h (by decide)
  · rintro rfl
    exact absurd h (by decide)


/-- A line `<name> connected primary <W>x<H>+<tail>` whose name is not empty and has
no white space, `W` and `H` being digits, yields `<W>x<H>`. -/
theorem scanLines_primary_line (name W H tail : GoString) (rest : List GoString)
    (hname : name ≠ []) (hsp : ∀ c ∈ name, isSpace c = false)
    (hW : ∀ c ∈ W, c.isDigit = true) (hH : ∀ c ∈ H, c.isDigit = true) :
    scanLines ((name ++ (primaryMarker ++ (W ++ 'x' :: (H ++ '+' :: tail)))) :: rest)
      = Outcome.ok (W ++ 'x' :: H) := by
  obtain ⟨n, ns, rfl⟩ := List.exists_cons_of_ne_nil hname
  have hn : isSpace n = false := hsp n (List.mem_cons_self _ _)
  have hplus : isSpace '+' = false := by decide
  set tail2 := (tail.reverse.dropWhile isSpace).reverse with htail2
  have htrim : TrimSpace ((n :: ns) ++ (primaryMarker ++ (W ++ 'x' :: (H ++ '+' :: tail))))
      = (n :: ns) ++ (primaryMarker ++ (W ++ 'x' :: (H ++ '+' :: tail2))) := by
    have := TrimSpace_keep n '+' (ns ++ (primaryMarker ++ (W ++ 'x' :: H))) tail hn hplus
    simpa [List.append_assoc] using this
  have hcont : Contains ((n :: ns) ++ (primaryMarker ++ (W ++ 'x' :: (H ++ '+' :: tail2))))
      primaryMarker = true :=
    (Contains_iff _ _).mpr ⟨n :: ns, W ++ 'x' :: (H ++ '+' :: tail2), by simp [List.append_assoc]⟩
  have hnosp : ' ' ∉ n :: ns := by
    intro h
    have := hsp ' ' h
    exact absurd this (by decide)
  have hwh : ∀ c ∈ W ++ 'x' :: H, c ≠ ' ' ∧ c ≠ '+' := by
    intro c hc
    rcases List.mem_append.mp hc with h | h
    · exact (isDigit_not_sep c (hW c h)).2
    · rcases List.mem_cons.mp h with rfl | h
      · exact ⟨by decide, by decide⟩
      · exact (isDigit_not_sep c (hH c h)).2
  have hsplit : Split ((n :: ns) ++ (primaryMarker ++ (W ++ 'x' :: (H ++ '+' :: tail2)))) ' '
      = (n :: ns) :: "connected".toList :: "primary".toList ::
          Split (W ++ 'x' :: (H ++ '+' :: tail2)) ' ' := by
    have e1 : (n :: ns) ++ (primaryMarker ++ (W ++ 'x' :: (H ++ '+' :: tail2)))
        = (n :: ns) ++ ' ' :: ("connected".toList ++ ' ' :: ("primary".toList ++ ' ' ::
            (W ++ 'x' :: (H ++ '+' :: tail2)))) := by
      simp [primaryMarker]
    rw [e1, Split_append_sep _ _ ' ' hnosp, Split_append_sep _ _ ' ' (by decide),
      Split_append_sep _ _ ' ' (by decide)]
  have hfield : (Split (W ++ 'x' :: (H ++ '+' :: tail2)) ' ')[0]?
      = some ((W ++ 'x' :: H) ++ '+' :: tail2.takeWhile (fun c => c != ' ')) := by
    rw [Split_head]
    have e2 : W ++ 'x' :: (H ++ '+' :: tail2) = (W ++ 'x' :: H) ++ ('+' :: tail2) := by simp
    rw [e2, takeWhile_append_pass _ _ _ (fun c hc => by simpa using (hwh c hc).1)]
    simp [List.takeWhile]
  simp only [scanLines, htrim, hcont, if_true, hsplit, List.getElem?_cons_succ, hfield,
    Split_head]
  rw [takeWhile_append_stop _ _ _ '+' (fun c hc => by simpa using (hwh c hc).2) (by decide)]

/-- C8: for every output text of the display query, the parsing in
`getPrimaryScreenResolution` returns a result without panic (the index `[3]` is
always in range) and the result never contains `+`; for the first line that after
trimming contains the marker ` connected primary ` the result is that line's fourth
space-separated field cut at its first `+`; a line
`<name> connected primary <W>x<H>+<tail>` with a non-empty name free of white space
and digits `W`, `H` yields exactly `<W>x<H>`; and the result is the empty string
when no line contains the marker. -/
theorem getPrimaryScreenResolution_parse (output : GoString) :
    (∃ r, getPrimaryScreenResolution ⟨output, none⟩ = Outcome.ok r ∧ '+' ∉ r) ∧
    (∀ before line after, Split output '\n' = before ++ line :: after →
      (∀ l ∈ before, Contains (TrimSpace l) primaryMarker = false) →
      Contains (TrimSpace line) primaryMarker = true →
      ∃ field, (Split (TrimSpace line) ' ')[3]? = some field ∧
        getPrimaryScreenResolution ⟨output, none⟩
          = Outcome.ok (field.takeWhile (fun c => c != '+'))) ∧
    (∀ before name W H tail after,
      Split output '\n'
        = before ++ (name ++ (" connected primary ".toList ++ (W ++ 'x' :: (H ++ '+' :: tail))))
            :: after →
      (∀ l ∈ before, Contains (TrimSpace l) primaryMarker = false) →
      name ≠ [] → (∀ c ∈ name, isSpace c = false) →
      (∀ c ∈ W, c.isDigit = true) → (∀ c ∈ H, c.isDigit = true) →
      getPrimaryScreenResolution ⟨output, none⟩ = Outcome.ok (W ++ 'x' :: H)) ∧
    ((∀ l ∈ Split output '\n', Contains (TrimSpace l) primaryMarker = false) →
      getPrimaryScreenResolution ⟨output, none⟩ = Outcome.ok []) := by
  refine ⟨?_, ?_, ?_, ?_⟩
  · exact scanLines_total _
  · intro before line after hsplit hbefore hline
    obtain ⟨field, hf, hs⟩ := scanLines_marker_line line after hline
    refine ⟨field, hf, ?_⟩
    simp only [getPrimaryScreenResolution, hsplit]
    rw [scanLines_skip before _ hbefore, hs]
  · intro before name W H tail after hsplit hbefore hname hsp hW hH
    simp only [getPrimaryScreenResolution, hsplit]
    rw [scanLines_skip before _ hbefore]
    exact scanLines_primary_line name W H tail after hname hsp hW hH
  · intro hno
    simp only [getPrimaryScreenResolution]
    exact scanLines_no_marker _ hno

theorem getPrimaryScreenResolution_parse_witness :
    getPrimaryScreenResolution ⟨xrandrOutput, none⟩ = Outcome.ok "1366x768".toList ∧
    (∃ field, (Split (TrimSpace
        "Virtual1 connected primary 1366x768+0+0 (normal left inverted right x axis y axis) 0mm x 0mm".toList)
        ' ')[3]? = some field ∧
      getPrimaryScreenResolution ⟨xrandrOutput, none⟩
        = Outcome.ok (field.takeWhile (fun c => c != '+'))) ∧
    getPrimaryScreenResolution ⟨xrandrOutputNoPrimary, none⟩ = Outcome.ok [] :=
  ⟨(getPrimaryScreenResolution_parse xrandrOutput).2.2.1
      ["Screen 0: minimum 1 x 1, current 1366 x 768, maximum 8192 x 8192".toList]
      "Virtual1".toList "1366".toList "768".toList
      "0+0 (normal left inverted right x axis y axis) 0mm x 0mm".toList
      ["   1366x768      60.00*+".toList,
       "Virtual2 disconnected (normal left inverted right x axis y axis)".toList, []]
      (by decide) (by decide) (by decide) (by decide) (by decide) (by decide),
   (getPrimaryScreenResolution_parse xrandrOutput).2.1
      ["Screen 0: minimum 1 x 1, current 1366 x 768, maximum 8192 x 8192".toList]
      "Virtual1 connected primary 1366x768+0+0 (normal left inverted right x axis y axis) 0mm x 0mm".toList
      ["   1366x768      60.00*+".toList,
       "Virtual2 disconnected (normal left inverted right x axis y axis)".toList, []]
      (by decide) (by decide) (by decide),
   (getPrimaryScreenResolution_parse xrandrOutputNoPrimary).2.2.2 (by decide)⟩


/-! ## Watcher loop -/

theorem commands_append (a b : List Event) : commands (a ++ b) = commands a ++ commands b := by
  induction a with
  | nil => rfl
  | cons e rest ih => cases e <;> simp [commands, ih]

theorem launches_append (a b : List Event) : launches (a ++ b) = launches a ++ launches b := by
  induction a with
  | nil => rfl
  | cons e rest ih =>
    cases e with
    | startProcess argv started => cases started <;> simp [launches, ih]
    | _ => simp [launches, ih]

/-- An iteration whose probe result is empty or unchanged only sleeps. -/
theorem loopIteration_idle (path : GoString) (dpiData : StrMap) (lastResolution : GoString)
    (t : Tick) (R : GoString) (hprobe : getPrimaryScreenResolution t.xrandr = Outcome.ok R)
    (h : R = [] ∨ R = lastResolution) :
    loopIteration path dpiData lastResolution t = ([Event.sleep], Outcome.ok lastResolution) := by
  simp only [loopIteration, hprobe, h, if_true]

/-- The events of an iteration with a new, mapped resolution up to the construction of
the command. -/
def applyPrefix (R : GoString) (D : Int) : List Event :=
  [Event.sleep, Event.log ("Found new resolution ".toList ++ R), Event.lookup R,
   Event.log ("Setting font DPI ".toList ++ Itoa D), Event.command (applyArgv D)]

/-- The result of an iteration with a new, mapped resolution, by the answers of the
world. -/
theorem loopIteration_mapped_eq (path : GoString) (dpiData : StrMap)
    (lastResolution : GoString) (t : Tick) (R : GoString) (D : Int)
    (hprobe : getPrimaryScreenResolution t.xrandr = Outcome.ok R)
    (hne : R ≠ []) (hnew : R ≠ lastResolution)
    (hmap : findDpiValue dpiData R = Outcome.ok (some D)) :
    loopIteration path dpiData lastResolution t =
      match t.lookPathErr with
      | some e => (applyPrefix R D, Outcome.fatal (Diagnostic.err e))
      | none =>
        match t.os 0 with
        | SpawnResult.exited code _ =>
          if code = 0 then
            (applyPrefix R D ++ [Event.startProcess (applyArgv D) true], Outcome.ok R)
          else
            (applyPrefix R D ++ [Event.startProcess (applyArgv D) true],
              Outcome.fatal (Diagnostic.cannotSetDpi code []))
        | SpawnResult.failed _ =>
          match t.os 1 with
          | SpawnResult.failed _ =>
            (applyPrefix R D ++ [Event.startProcess (applyArgv D) false,
                Event.startProcess (applyArgv D) false],
              Outcome.fatal (Diagnostic.cannotSetDpi (-1) []))
          | SpawnResult.exited code out =>
            (applyPrefix R D ++ [Event.startProcess (applyArgv D) false,
                Event.startProcess (applyArgv D) true],
              Outcome.fatal (Diagnostic.cannotSetDpi code out)) := by
  have hidle : ¬ (R = [] ∨ R = lastResolution) := by
    rintro (h | h)
    · exact hne h
    · exact hnew h
  simp only [loopIteration, hprobe, hidle, if_false, hmap]
  cases hl : t.lookPathErr with
  | some e =>
    simp [Cmd.Start, Cmd.Wait, Command, applyPrefix]
  | none =>
    cases h0 : t.os 0 with
    | exited code out =>
      by_cases hc : code = 0
      · simp [Cmd.Start, Cmd.Wait, Command, applyPrefix, ExitCode, h0, hc]
      · simp [Cmd.Start, Cmd.Wait, Command, applyPrefix, ExitCode, h0, hc, Cmd.CombinedOutput, Cmd.Run]
    | failed e0 =>
      cases h1 : t.os 1 with
      | failed e1 =>
        simp [Cmd.Start, Cmd.Wait, Command, applyPrefix, ExitCode, h0, h1, Cmd.CombinedOutput, Cmd.Run]
      | exited code out =>
        simp [Cmd.Start, Cmd.Wait, Command, applyPrefix, ExitCode, h0, h1, Cmd.CombinedOutput, Cmd.Run]

/-- C3: for every watcher state and every probe result `R` that is not empty, differs
from `lastResolution` and is mapped to the DPI `D`, one iteration of `loop` builds the
DPI command exactly once, with `strconv.Itoa(D)` as its value whatever `D` is, and
no process other than that command is ever launched, and at most one; when the
command is launched it is launched exactly once, an exit code zero makes
`lastResolution` become `R` with the loop continuing, and a non-zero exit code ends
the process fatally; when the command fails to launch (the executable is not found,
or the operating system refuses to start it) the process ends fatally as well. -/
theorem loopIteration_apply (path : GoString) (dpiData : StrMap) (lastResolution : GoString)
    (t : Tick) (R : GoString) (D : Int)
    (hprobe : getPrimaryScreenResolution t.xrandr = Outcome.ok R)
    (hne : R ≠ []) (hnew : R ≠ lastResolution)
    (hmap : findDpiValue dpiData R = Outcome.ok (some D)) :
    commands (loopIteration path dpiData lastResolution t).1
      = [["xfconf-query".toList, "-c".toList, "xsettings".toList, "-p".toList,
          "/Xft/DPI".toList, "-s".toList, Itoa D]] ∧
    (launches (loopIteration path dpiData lastResolution t).1 = [] ∨
      launches (loopIteration path dpiData lastResolution t).1 = [applyArgv D]) ∧
    (∀ code out, t.lookPathErr = none → t.os 0 = SpawnResult.exited code out →
      launches (loopIteration path dpiData lastResolution t).1 = [applyArgv D] ∧
      (code = 0 → (loopIteration path dpiData lastResolution t).2 = Outcome.ok R) ∧
      (code ≠ 0 → ∃ d, (loopIteration path dpiData lastResolution t).2 = Outcome.fatal d)) ∧
    (∀ e, t.lookPathErr = some e →
      launches (loopIteration path dpiData lastResolution t).1 = [] ∧
      (loopIteration path dpiData lastResolution t).2 = Outcome.fatal (Diagnostic.err e)) ∧
    (∀ e, t.lookPathErr = none → t.os 0 = SpawnResult.failed e →
      ∃ d, (loopIteration path dpiData lastResolution t).2 = Outcome.fatal d) := by
  have heq := loopIteration_mapped_eq path dpiData lastResolution t R D hprobe hne hnew hmap
  refine ⟨?_, ?_, ?_, ?_, ?_⟩
  · rw [heq]
    cases t.lookPathErr with
    | some e => simp [applyPrefix, commands, applyArgv]
    | none =>
      cases t.os 0 with
      | exited code out =>
        by_cases hc : code = 0 <;> simp [applyPrefix, commands, applyArgv, hc]
      | failed e0 =>
        cases t.os 1 <;> simp [applyPrefix, commands, applyArgv]
  · rw [heq]
    cases t.lookPathErr with
    | some e => simp [applyPrefix, launches]
    | none =>
      cases t.os 0 with
      | exited code out =>
        by_cases hc : code = 0 <;> simp [applyPrefix, launches, hc]
      | failed e0 =>
        cases t.os 1 <;> simp [applyPrefix, launches]
  · intro code out hl h0
    rw [heq]
    by_cases hc : code = 0 <;> simp [hl, h0, hc, applyPrefix, launches]
  · intro e hl
    rw [heq]
    simp [hl, applyPrefix, launches]
  · intro e hl h0
    rw [heq]
    cases h1 : t.os 1 <;> simp [hl, h0]


theorem loopIteration_apply_witness :
    getPrimaryScreenResolution tick1920.xrandr = Outcome.ok "1920x1080".toList ∧
    findDpiValue defaultDpiData "1920x1080".toList = Outcome.ok (some (-1)) ∧
    commands (loopIteration DPIFilePathname defaultDpiData [] tick1920).1
      = [["xfconf-query".toList, "-c".toList, "xsettings".toList, "-p".toList,
          "/Xft/DPI".toList, "-s".toList, Itoa (-1)]] ∧
    Itoa (-1) = "-1".toList ∧
    launches (loopIteration DPIFilePathname defaultDpiData [] tick1920).1
      = [applyArgv (-1)] ∧
    (loopIteration DPIFilePathname defaultDpiData [] tick1920).2
      = Outcome.ok "1920x1080".toList :=
  ⟨by decide, by decide,
   (loopIteration_apply DPIFilePathname defaultDpiData [] tick1920 "1920x1080".toList (-1)
      (by decide) (by decide) (by decide) (by decide)).1,
   by decide,
   ((loopIteration_apply DPIFilePathname defaultDpiData [] tick1920 "1920x1080".toList (-1)
      (by decide) (by decide) (by decide) (by decide)).2.2.1 0 [] rfl rfl).1,
   ((loopIteration_apply DPIFilePathname defaultDpiData [] tick1920 "1920x1080".toList (-1)
      (by decide) (by decide) (by decide) (by decide)).2.2.1 0 [] rfl rfl).2.1 rfl⟩

/-- An iteration with a new resolution builds at most one command, launches at most
one process, and can only continue with the new resolution as `lastResolution`. -/
theorem loopIteration_new (path : GoString) (dpiData : StrMap) (lastResolution : GoString)
    (t : Tick) (R : GoString) (hprobe : getPrimaryScreenResolution t.xrandr = Outcome.ok R)
    (hne : R ≠ []) (hnew : R ≠ lastResolution) :
    (commands (loopIteration path dpiData lastResolution t).1).length ≤ 1 ∧
    (launches (loopIteration path dpiData lastResolution t).1).length ≤ 1 ∧
    ∀ next, (loopIteration path dpiData lastResolution t).2 = Outcome.ok next → next = R := by
  have hidle : ¬ (R = [] ∨ R = lastResolution) := by
    rintro (h | h)
    · exact hne h
    · exact hnew h
  cases hmap : findDpiValue dpiData R with
  | ok found =>
    cases found with
    | none =>
      simp [loopIteration, hprobe, hidle, hmap, commands, launches]
    | some D =>
      rw [loopIteration_mapped_eq path dpiData lastResolution t R D hprobe hne hnew hmap]
      cases t.lookPathErr with
      | some e => simp [applyPrefix, commands, launches]
      | none =>
        cases t.os 0 with
        | exited code out =>
          by_cases hc : code = 0 <;> simp [applyPrefix, commands, launches, hc]
        | failed e0 =>
          cases t.os 1 <;> simp [applyPrefix, commands, launches]
  | fatal d => simp [loopIteration, hprobe, hidle, hmap, commands, launches]
  | panic m => simp [loopIteration, hprobe, hidle, hmap, commands, launches]

/-- C4: an iteration of `loop` whose probe result is empty or equal to
`lastResolution` only sleeps: it performs no lookup, builds and launches no command,
does not end the process and leaves `lastResolution` unchanged, whatever the
configuration holds; and feeding the loop the same resolution `R` in two successive
iterations builds at most one DPI command and launches at most one process. -/
theorem loop_idempotent (path : GoString) (dpiData : StrMap) (lastResolution : GoString)
    (t1 t2 : Tick) (R : GoString)
    (h1 : getPrimaryScreenResolution t1.xrandr = Outcome.ok R)
    (h2 : getPrimaryScreenResolution t2.xrandr = Outcome.ok R) :
    (R = [] ∨ R = lastResolution →
      loopIteration path dpiData lastResolution t1
        = ([Event.sleep], Outcome.ok lastResolution) ∧
      lookups (loopIteration path dpiData lastResolution t1).1 = [] ∧
      commands (loopIteration path dpiData lastResolution t1).1 = [] ∧
      launches (loopIteration path dpiData lastResolution t1).1 = []) ∧
    (commands (loopFrom path dpiData lastResolution [t1, t2]).1).length ≤ 1 ∧
    (launches (loopFrom path dpiData lastResolution [t1, t2]).1).length ≤ 1 := by
  constructor
  · intro h
    rw [loopIteration_idle path dpiData lastResolution t1 R h1 h]
    exact ⟨rfl, rfl, rfl, rfl⟩
  · by_cases h : R = [] ∨ R = lastResolution
    · simp [loopFrom, loopIteration_idle path dpiData lastResolution t1 R h1 h,
        loopIteration_idle path dpiData lastResolution t2 R h2 h, commands, launches]
    · have hne : R ≠ [] := fun e => h (Or.inl e)
      have hnew : R ≠ lastResolution := fun e => h (Or.inr e)
      obtain ⟨hc, hl, hnext⟩ := loopIteration_new path dpiData lastResolution t1 R h1 hne hnew
      rcases hres : loopIteration path dpiData lastResolution t1 with ⟨tr, o⟩
      rw [hres] at hc hl hnext
      cases o with
      | ok next =>
        have hn : next = R := hnext next rfl
        subst hn
        simp only [loopFrom, hres, loopIteration_idle path dpiData next t2 next h2 (Or.inr rfl),
          commands_append, launches_append]
        simpa [commands, launches] using And.intro hc hl
      | fatal d => simpa [loopFrom, hres] using And.intro hc hl
      | panic m => simpa [loopFrom, hres] using And.intro hc hl


theorem loop_idempotent_witness :
    getPrimaryScreenResolution tick1920.xrandr = Outcome.ok "1920x1080".toList ∧
    (loopIteration DPIFilePathname defaultDpiData "1920x1080".toList tick1920
        = ([Event.sleep], Outcome.ok "1920x1080".toList) ∧
      lookups (loopIteration DPIFilePathname defaultDpiData "1920x1080".toList tick1920).1 = [] ∧
      commands (loopIteration DPIFilePathname defaultDpiData "1920x1080".toList tick1920).1 = [] ∧
      launches (loopIteration DPIFilePathname defaultDpiData "1920x1080".toList tick1920).1 = []) ∧
    (commands (loopFrom DPIFilePathname defaultDpiData [] [tick1920, tick1920]).1).length ≤ 1 ∧
    (launches (loopFrom DPIFilePathname defaultDpiData [] [tick1920, tick1920]).1).length ≤ 1 :=
  ⟨by decide,
   (loop_idempotent DPIFilePathname defaultDpiData "1920x1080".toList tick1920 tick1920
      "1920x1080".toList (by decide) (by decide)).1 (Or.inr rfl),
   (loop_idempotent DPIFilePathname defaultDpiData [] tick1920 tick1920
      "1920x1080".toList (by decide) (by decide)).2⟩

/-- C5: for every watcher state and every probe result `R` that is not empty, differs
from `lastResolution` and is the res of no entry of the loaded mapping, the iteration
of `loop` ends the process with the fatal diagnostic
`Cannot find font DPI value for R resolution, please add it in <path> file.`, which
names `R` and the configuration path, and no DPI command is built or launched. -/
theorem loopIteration_unmapped (path : GoString) (file : Except GoString GoString)
    (unmarshal : GoString → Except GoString StrMap) (dpiData : StrMap)
    (table : List (GoString × Int)) (lastResolution : GoString) (t : Tick) (R : GoString)
    (hload : readDpiFile path file unmarshal = Outcome.ok dpiData)
    (ht : tableOf dpiData = some table)
    (hprobe : getPrimaryScreenResolution t.xrandr = Outcome.ok R)
    (hne : R ≠ []) (hnew : R ≠ lastResolution) (hno : ∀ e ∈ table, e.1 ≠ R) :
    (loopIteration path dpiData lastResolution t).2
      = Outcome.fatal (Diagnostic.text (cannotFindMsg R path)) ∧
    List.IsInfix R (cannotFindMsg R path) ∧ List.IsInfix path (cannotFindMsg R path) ∧
    commands (loopIteration path dpiData lastResolution t).1 = [] ∧
    launches (loopIteration path dpiData lastResolution t).1 = [] := by
  obtain ⟨table2, ht2, hf⟩ := findDpiValue_of_checkDpiData (checkDpiData_of_readDpiFile hload)
  rw [ht] at ht2
  simp only [Option.some.injEq] at ht2
  subst ht2
  have hmap : findDpiValue dpiData R = Outcome.ok none := by
    rw [hf R, (firstMatch_eq_none_iff table R).mpr hno]
  have hidle : ¬ (R = [] ∨ R = lastResolution) := by
    rintro (h | h)
    · exact hne h
    · exact hnew h
  refine ⟨?_, ?_, ?_, ?_, ?_⟩
  · simp only [loopIteration, hprobe, hidle, if_false, hmap]
  · exact ⟨"Cannot find font DPI value for ".toList,
      " resolution, please add it in ".toList ++ path ++ " file.\n".toList,
      by simp [cannotFindMsg, List.append_assoc]⟩
  · exact ⟨"Cannot find font DPI value for ".toList ++ R ++
        " resolution, please add it in ".toList, " file.\n".toList,
      by simp [cannotFindMsg, List.append_assoc]⟩
  · simp only [loopIteration, hprobe, hidle, if_false, hmap, commands]
  · simp only [loopIteration, hprobe, hidle, if_false, hmap, launches]

theorem loopIteration_unmapped_witness :
    readDpiFile DPIFilePathname (Except.ok DefaultDPI_YAML) unmarshalBlock
      = Outcome.ok defaultDpiData ∧
    tableOf defaultDpiData = some defaultTable ∧
    getPrimaryScreenResolution tick2560.xrandr = Outcome.ok "2560x1440".toList ∧
    (∀ e ∈ defaultTable, e.1 ≠ "2560x1440".toList) ∧
    ((loopIteration DPIFilePathname defaultDpiData "1920x1080".toList tick2560).2
      = Outcome.fatal (Diagnostic.text (cannotFindMsg "2560x1440".toList DPIFilePathname)) ∧
    List.IsInfix "2560x1440".toList (cannotFindMsg "2560x1440".toList DPIFilePathname) ∧
    List.IsInfix DPIFilePathname (cannotFindMsg "2560x1440".toList DPIFilePathname) ∧
    commands (loopIteration DPIFilePathname defaultDpiData "1920x1080".toList tick2560).1 = [] ∧
    launches (loopIteration DPIFilePathname defaultDpiData "1920x1080".toList tick2560).1 = []) :=
  ⟨rfl, by decide, by decide, by decide,
   loopIteration_unmapped DPIFilePathname (Except.ok DefaultDPI_YAML) unmarshalBlock
     defaultDpiData defaultTable "1920x1080".toList tick2560 "2560x1440".toList
     rfl (by decide) (by decide) (by decide) (by decide) (by decide)⟩


/-! ## Configuration checks -/

/-- An entry on which every type assertion of `readDpiFile` succeeds: a mapping with
string keys whose `res`, when present, is a string. -/
def assertable : GoAny → Bool
  | GoAny.strMap m =>
    match mapIndex m "res".toList with
    | none => true
    | some (GoAny.str _) => true
    | some _ => false
  | _ => false

/-- An entry that lacks `res`, lacks `dpi`, has a blank `res` or has a `dpi` that is
not an `int`. -/
def malformed : GoAny → Bool
  | GoAny.strMap m =>
    match mapIndex m "dpi".toList, mapIndex m "res".toList with
    | none, _ => true
    | _, none => true
    | some (GoAny.int _), some (GoAny.str res) => decide (TrimSpace res = [])
    | some _, some _ => true
  | _ => false

/-- Where every type assertion succeeds, a malformed entry makes the checks end with
the format diagnostic, and so does a root without the key `resolutions`. -/
theorem checkDpiData_format_error (path : GoString) (dpiData : StrMap) :
    (mapIndex dpiData "resolutions".toList = none →
      checkDpiData path dpiData = Outcome.fatal (Diagnostic.format (formatErrMsg path))) ∧
    (∀ entries, mapIndex dpiData "resolutions".toList = some (GoAny.slice entries) →
      (∀ x ∈ entries, assertable x = true) → (∃ x ∈ entries, malformed x = true) →
      checkDpiData path dpiData = Outcome.fatal (Diagnostic.text (formatErrMsg path))) := by
  constructor
  · intro h
    simp only [checkDpiData, h]
  · intro entries h hall hex
    simp only [checkDpiData, h]
    clear h
    induction entries with
    | nil =>
      obtain ⟨x, hx, -⟩ := hex
      exact absurd hx (List.not_mem_nil x)
    | cons x xs ih =>
      have hx := hall x (List.mem_cons_self _ _)
      cases x with
      | strMap m =>
        simp only [assertable] at hx
        simp only [checkEntries]
        cases hdpi : mapIndex m "dpi".toList with
        | none => rfl
        | some dpi =>
          cases hres : mapIndex m "res".toList with
          | none => rfl
          | some res =>
            rw [hres] at hx
            cases res with
            | str r =>
              simp only
              by_cases hblank : TrimSpace r = []
              · rw [if_pos hblank]
              · rw [if_neg hblank]
                cases dpi with
                | int d =>
                  simp only
                  apply ih (fun y hy => hall y (List.mem_cons_of_mem _ hy))
                  obtain ⟨y, hy, hm⟩ := hex
                  rcases List.mem_cons.mp hy with rfl | hy
                  · simp only [malformed, hdpi, hres, hblank, decide_False] at hm
                    exact absurd hm (by simp)
                  · exact ⟨y, hy, hm⟩
                | _ => rfl
            | _ => simp at hx
      | _ => simp [assertable] at hx

/-- C6, failing inputs: a decoded configuration whose `resolutions` is not a sequence
(the texts `resolutions: 5` and `resolutions:`), and one whose only entry has a `dpi`
that is not an integer next to a `res` that is not a string (`res: 800`,
`dpi: high`), make `readDpiFile` panic on a type assertion instead of ending with
the format diagnostic. -/
theorem readDpiFile_panics :
    readDpiFile DPIFilePathname (Except.ok "resolutions: 5\n".toList)
        (fun _ => Except.ok [("resolutions".toList, GoAny.int 5)])
      = Outcome.panic "interface conversion: value is not []any".toList ∧
    readDpiFile DPIFilePathname (Except.ok "resolutions:\n".toList)
        (fun _ => Except.ok [("resolutions".toList, GoAny.nil)])
      = Outcome.panic "interface conversion: value is not []any".toList ∧
    readDpiFile DPIFilePathname (Except.ok "resolutions:\n  - res: 800\n    dpi: high\n".toList)
        (fun _ => Except.ok [("resolutions".toList, GoAny.slice [GoAny.strMap
          [("res".toList, GoAny.int 800), ("dpi".toList, GoAny.str "high".toList)]])])
      = Outcome.panic "interface conversion: value is not string".toList ∧
    checkDpiData DPIFilePathname [("resolutions".toList, GoAny.int 5)]
      ≠ Outcome.fatal (Diagnostic.format (formatErrMsg DPIFilePathname)) ∧
    checkDpiData DPIFilePathname [("resolutions".toList, GoAny.int 5)]
      ≠ Outcome.fatal (Diagnostic.text (formatErrMsg DPIFilePathname)) :=
  ⟨rfl, rfl, rfl, by decide, by decide⟩

/-! ## Command line -/

/-- C9, failing input: with the single unknown option `--foo`, `main` prints the usage
text and returns, so the process exits with status 0, whereas with no option, with
`--help` or with two arguments it prints the same text and exits with status 1. -/
theorem main_unknown_option_exits_zero :
    main linuxWorld ["autodpi".toList, "--foo".toList]
      = (printAppName ++ printAppInfo ++ printUsages "autodpi".toList, Termination.exit 0) ∧
    (main linuxWorld ["autodpi".toList, "--foo".toList]).2.exitCode = some 0 ∧
    main linuxWorld ["autodpi".toList]
      = (printAppName ++ printAppInfo ++ printUsages "autodpi".toList, Termination.exit 1) ∧
    main linuxWorld ["autodpi".toList, "--help".toList]
      = (printAppName ++ printAppInfo ++ printUsages "autodpi".toList, Termination.exit 1) ∧
    main linuxWorld ["autodpi".toList, "--foo".toList, "--run".toList]
      = (printAppName ++ printAppInfo ++ printUsages "autodpi".toList, Termination.exit 1) :=
  ⟨by decide, by decide, by decide, by decide, by decide⟩

/-! ## Default configuration -/

/-- C10: `createDpiFile` writes `DefaultDPI_YAML` when the configuration file is
absent and leaves an existing file as it is; the default passes the checks of
`readDpiFile`; its table has 18 entries, the entries with a dpi other than -1 are
exactly `3200x1800`, `3840x1620` and `3840x2160` with 148, 160 and 160; and
`findDpiValue` on each resolution of the default returns the value written next to
it. -/
theorem default_mapping_loads :
    (∀ path, (createDpiFile path none true).2 = some DefaultDPI_YAML) ∧
    (∀ path data writable, createDpiFile path (some data) writable = ([], some data)) ∧
    (∀ path, readDpiFile path (readFile (createDpiFile path none true).2) unmarshalBlock
      = Outcome.ok defaultDpiData) ∧
    tableOf defaultDpiData = some defaultTable ∧
    defaultTable.length = 18 ∧
    defaultTable.filter (fun e => e.2 != -1)
      = [("3200x1800".toList, 148), ("3840x1620".toList, 160), ("3840x2160".toList, 160)] ∧
    (∀ e ∈ defaultTable, findDpiValue defaultDpiData e.1 = Outcome.ok (some e.2)) :=
  ⟨fun _ => rfl, fun _ _ _ => rfl, fun _ => rfl, by decide, by decide, by decide, by decide⟩

end Autodpi
